import Mathlib

/-!
Verification development for the gitbutler session watcher
(`src/src-tauri/src/watchers/git.rs`).

The watcher module is embedded shallowly:

* the object store (git2), the session store, the directory lister and the
  ignore-rule oracle are external collaborators; they appear as explicit
  inputs (file lists carry their own read results as `Except Unit _` values,
  so that an I/O failure at any individual read point of the source can be
  injected) and as an explicit `Store` value recording every write the
  watcher performs (blobs, trees, root trees, commits, the
  `refs/gitbutler/current` reference, the `lfs/objects` directory, and the
  deletion of the current session record);
* machine integers are `Nat`/`Int`; the source's fallible `try_from`/
  `try_into` conversions to the 32-bit index-entry fields are modelled by
  explicit range checks returning `Except Unit _`, and the unguarded `u64`
  subtractions of `ready_to_commit` by a checked subtraction whose error
  value models the arithmetic-overflow panic;
* blobs are content addressed: a blob id is the blob's content (the file's
  bytes, or the pointer text for an externalized large file); a tree id is
  the list of index entries it was written from; a commit id is the commit's
  position in the order of commit writes;
* SHA-256 is implemented concretely (the source streams the file through
  `sha2::Sha256` and renders the digest with the uppercase `\x7b:X\x7d`
  format), so digests and pointer payloads evaluate on concrete inputs.

Every function keeps the source's name where Lean allows it; state threading
follows the source's statement order, in particular which writes have already
happened when a later step fails.
-/

set_option maxRecDepth 10000

namespace GitButler

/-! ### SHA-256 (`sha2::Sha256`), executable over byte lists -/

/-- A file's bytes. -/
abbrev Bytes := List Nat

/-- Truncation to 32 bits. -/
def w32 (x : Nat) : Nat := x % 4294967296

/-- 32-bit right rotation. -/
def rotr (n x : Nat) : Nat := w32 ((x >>> n) ||| (x <<< (32 - n)))

def bsig0 (x : Nat) : Nat := (rotr 2 x) ^^^ (rotr 13 x) ^^^ (rotr 22 x)

def bsig1 (x : Nat) : Nat := (rotr 6 x) ^^^ (rotr 11 x) ^^^ (rotr 25 x)

def ssig0 (x : Nat) : Nat := (rotr 7 x) ^^^ (rotr 18 x) ^^^ (x >>> 3)

def ssig1 (x : Nat) : Nat := (rotr 17 x) ^^^ (rotr 19 x) ^^^ (x >>> 10)

def ch (x y z : Nat) : Nat := (x &&& y) ^^^ ((x ^^^ 4294967295) &&& z)

def maj (x y z : Nat) : Nat := (x &&& y) ^^^ (x &&& z) ^^^ (y &&& z)

/-- The 64 SHA-256 round constants (the standard cube-root words, written in
decimal). -/
def K256 : List Nat :=
  [1116352408, 1899447441, 3049323471, 3921009573, 961987163, 1508970993,
   2453635748, 2870763221, 3624381080, 310598401, 607225278, 1426881987,
   1925078388, 2162078206, 2614888103, 3248222580, 3835390401, 4022224774,
   264347078, 604807628, 770255983, 1249150122, 1555081692, 1996064986,
   2554220882, 2821834349, 2952996808, 3210313671, 3336571891, 3584528711,
   113926993, 338241895, 666307205, 773529912, 1294757372, 1396182291,
   1695183700, 1986661051, 2177026350, 2456956037, 2730485921, 2820302411,
   3259730800, 3345764771, 3516065817, 3600352804, 4094571909, 275423344,
   430227734, 506948616, 659060556, 883997877, 958139571, 1322822218,
   1537002063, 1747873779, 1955562222, 2024104815, 2227730452, 2361852424,
   2428436474, 2756734187, 3204031479, 3329325298]

/-- The SHA-256 initial hash value (the square-root words, in decimal). -/
def H256 : List Nat :=
  [1779033703, 3144134277, 1013904242, 2773480762,
   1359893119, 2600822924, 528734635, 1541459225]

/-- Big-endian 8-byte encoding. -/
def be64 (n : Nat) : Bytes :=
  [(n >>> 56) % 256, (n >>> 48) % 256, (n >>> 40) % 256, (n >>> 32) % 256,
   (n >>> 24) % 256, (n >>> 16) % 256, (n >>> 8) % 256, n % 256]

/-- Big-endian 4-byte encoding. -/
def be32 (n : Nat) : Bytes :=
  [(n >>> 24) % 256, (n >>> 16) % 256, (n >>> 8) % 256, n % 256]

/-- SHA-256 message padding. -/
def shaPad (msg : Bytes) : Bytes :=
  let len := msg.length
  let k := (119 - (len % 64)) % 64
  msg ++ 0x80 :: List.replicate k 0 ++ be64 (8 * len)

/-- Split into 64-byte blocks (fuel-driven so the kernel can evaluate it). -/
def chunks64 : Nat → Bytes → List Bytes
  | 0, _ => []
  | _, [] => []
  | fuel + 1, l => l.take 64 :: chunks64 fuel (l.drop 64)

/-- Big-endian 32-bit words of a block. -/
def toWords : Bytes → List Nat
  | b0 :: b1 :: b2 :: b3 :: rest =>
      (b0 * 16777216 + b1 * 65536 + b2 * 256 + b3) :: toWords rest
  | _ => []

/-- The 64-entry message schedule of a block. -/
def wsched (block : Bytes) : List Nat :=
  (List.range 48).foldl
    (fun w _ =>
      let t := w.length
      w ++ [w32 (ssig1 (w.getD (t - 2) 0) + w.getD (t - 7) 0 +
                 ssig0 (w.getD (t - 15) 0) + w.getD (t - 16) 0)])
    (toWords block)

/-- One SHA-256 compression step over a 64-byte block. -/
def compressBlock (H : List Nat) (block : Bytes) : List Nat :=
  let w := wsched block
  let s := (List.range 64).foldl
    (fun (s : Nat × Nat × Nat × Nat × Nat × Nat × Nat × Nat) t =>
      let (a, b, c, d, e, f, g, h) := s
      let T1 := w32 (h + bsig1 e + ch e f g + K256.getD t 0 + w.getD t 0)
      let T2 := w32 (bsig0 a + maj a b c)
      (w32 (T1 + T2), a, b, c, w32 (d + T1), e, f, g))
    (H.getD 0 0, H.getD 1 0, H.getD 2 0, H.getD 3 0,
     H.getD 4 0, H.getD 5 0, H.getD 6 0, H.getD 7 0)
  match s with
  | (a, b, c, d, e, f, g, h) =>
    [w32 (H.getD 0 0 + a), w32 (H.getD 1 0 + b), w32 (H.getD 2 0 + c), w32 (H.getD 3 0 + d),
     w32 (H.getD 4 0 + e), w32 (H.getD 5 0 + f), w32 (H.getD 6 0 + g), w32 (H.getD 7 0 + h)]

/-- The SHA-256 digest (32 bytes) of a byte sequence. -/
def sha256 (msg : Bytes) : Bytes :=
  let padded := shaPad msg
  (((chunks64 padded.length padded).foldl compressBlock H256).map be32).flatten

/-- Uppercase hexadecimal digit, as Rust's `\x7b:X\x7d` formatting uses. -/
def hexUpperDigit (n : Nat) : Char :=
  (['0', '1', '2', '3', '4', '5', '6', '7', '8', '9', 'A', 'B', 'C', 'D', 'E', 'F']).getD n '0'

/-- Two uppercase hex digits of one byte. -/
def byteHexUpper (b : Nat) : String :=
  String.mk [hexUpperDigit (b / 16), hexUpperDigit (b % 16)]

/-- `sha256_digest` of the source: stream the bytes through SHA-256 and render
the digest with Rust's uppercase `\x7b:X\x7d` format (the `format!("\x7b:X\x7d", digest)`
at the end of the function). -/
def sha256_digest (content : Bytes) : String :=
  ((sha256 content).map byteHexUpper).foldl (fun acc s => acc ++ s) ""

/-! ### Data model: filesystem metadata and index entries -/

/-- `filetime::FileTime`: seconds are an `i64`, nanoseconds a `u32`. -/
structure FileTime where
  seconds : Int
  nanoseconds : Nat
deriving DecidableEq, Repr

/-- The filesystem metadata of one file as `std::fs::Metadata` exposes it to
the watcher (`mtime`, `ctime`, `dev`, `ino`, `mode`, `uid`, `gid`, `len`).
The file's bytes are read separately (by `blob_path`, `sha256_digest` and the
`lfs` copy), exactly as in the source, so they are not part of this record. -/
structure Metadata where
  mtime : FileTime
  ctime : FileTime
  dev : Nat
  ino : Nat
  mode : Nat
  uid : Nat
  gid : Nat
  len : Nat
deriving DecidableEq, Repr

/-- `git2::IndexTime`: an `i32` seconds part and a `u32` nanoseconds part. -/
structure IndexTime where
  seconds : Int
  nanoseconds : Nat
deriving DecidableEq, Repr

/-- A blob id. Blobs are content addressed, so the id is the content: the
file's bytes for `blob_path`, or the pointer text for `repo.blob(..)` on an
externalized large file. -/
inductive Blob where
  | fileBytes (content : Bytes)
  | text (s : String)
deriving DecidableEq, Repr

/-- `git2::IndexEntry` as the watcher fills it. -/
structure IndexEntry where
  ctime : IndexTime
  mtime : IndexTime
  dev : Nat
  ino : Nat
  mode : Nat
  uid : Nat
  gid : Nat
  file_size : Nat
  flags : Nat
  flags_extended : Nat
  path : String
  id : Blob
deriving DecidableEq, Repr

/-- A tree id: content address of the index the tree was written from. -/
structure TreeOid where
  entries : List IndexEntry
deriving DecidableEq, Repr

/-- One entry of the synthetic root tree (`tree_builder.insert`). -/
structure RootEntry where
  name : String
  oid : TreeOid
  filemode : Nat
deriving DecidableEq, Repr

/-- A root-tree id: content address of its entries. -/
structure RootTreeOid where
  entries : List RootEntry
deriving DecidableEq, Repr

/-- A commit object: its tree, its parent commit ids, its message. Commit ids
are positions in the store's commit log. -/
structure Commit where
  tree : RootTreeOid
  parents : List Nat
  message : String
deriving DecidableEq, Repr

/-- The two session timestamps the policy reads (`meta.start_ts`,
`meta.last_ts`, both epoch seconds as `u64`). -/
structure SessionMeta where
  start_ts : Nat
  last_ts : Nat
deriving DecidableEq, Repr

/-- Everything the watcher writes: blobs, trees written from indexes, root
trees, commits (a commit id is a position in `commits`), the
`refs/gitbutler/current` target, the `lfs/objects` directory (digest key to
copied bytes), and whether the current session record has been deleted. -/
structure Store where
  blobs : List Blob
  trees : List (List IndexEntry)
  rootTrees : List (List RootEntry)
  commits : List Commit
  gbRef : Option Nat
  lfs : List (String × Bytes)
  sessionDeleted : Bool
deriving DecidableEq, Repr

/-- The store before any write. -/
def Store.init : Store :=
  { blobs := [], trees := [], rootTrees := [], commits := [], gbRef := none,
    lfs := [], sessionDeleted := false }

instance {ε α : Type} [DecidableEq ε] [DecidableEq α] : DecidableEq (Except ε α) := fun a b =>
  match a, b with
  | .error x, .error y =>
      if h : x = y then .isTrue (by rw [h]) else .isFalse (fun hc => h (by cases hc; rfl))
  | .error _, .ok _ => .isFalse (fun hc => Except.noConfusion hc)
  | .ok _, .error _ => .isFalse (fun hc => Except.noConfusion hc)
  | .ok x, .ok y =>
      if h : x = y then .isTrue (by rw [h]) else .isFalse (fun hc => h (by cases hc; rfl))

/-! ### Store writes -/

/-- `repo.blob` / `repo.blob_path`: record the blob, return its id. -/
def writeBlob (b : Blob) (st : Store) : Blob × Store :=
  (b, { st with blobs := st.blobs ++ [b] })

/-- `std::fs::copy` into `.git/lfs/objects/<digest>`. -/
def lfsCopy (key : String) (content : Bytes) (st : Store) : Store :=
  { st with lfs := st.lfs ++ [(key, content)] }

/-- `index.write_tree_to(&repo)`: write the index as a tree object. -/
def write_tree_to (index : List IndexEntry) (st : Store) : TreeOid × Store :=
  (TreeOid.mk index, { st with trees := st.trees ++ [index] })

/-- `tree_builder.write()`: write the composed root tree. -/
def writeRootTree (entries : List RootEntry) (st : Store) : RootTreeOid × Store :=
  (RootTreeOid.mk entries, { st with rootTrees := st.rootTrees ++ [entries] })

/-- `sessions::delete_current_session` (collaborator). -/
def delete_current_session (st : Store) : Store :=
  { st with sessionDeleted := true }

/-- `write_gb_commit`: resolve `refs/gitbutler/current`; if it resolves, the
resolved commit is the sole parent, otherwise the new commit is parentless;
the commit is written and the reference repointed to it. -/
def write_gb_commit (gb_tree : RootTreeOid) (st : Store) : Nat × Store :=
  match st.gbRef with
  | some last =>
      let cid := st.commits.length
      (cid, { st with commits := st.commits ++ [⟨gb_tree, [last], "gitbutler check"⟩],
                      gbRef := some cid })
  | none =>
      let cid := st.commits.length
      (cid, { st with commits := st.commits ++ [⟨gb_tree, [], "gitbutler check"⟩],
                      gbRef := some cid })

/-- Iterated `write_gb_commit` over a list of root trees. -/
def writeChain (trees : List RootTreeOid) (st : Store) : Store :=
  match trees with
  | [] => st
  | t :: ts => writeChain ts (write_gb_commit t st).2

/-- The parent list a commit gets from the current reference target. -/
def parentsOf : Option Nat → List Nat
  | none => []
  | some p => [p]

/-- `linearFrom prev idx cs` checks that the commits `cs` (stored at positions
`idx`, `idx+1`, …) form a chain: the first one's parent list is exactly what
`prev` dictates, and each later one's sole parent is its predecessor. -/
def linearFrom : Option Nat → Nat → List Commit → Bool
  | _, _, [] => true
  | prev, idx, c :: rest =>
      decide (c.parents = parentsOf prev) && linearFrom (some idx) (idx + 1) rest

/-! ### Index entries from metadata: the fallible 32-bit conversions -/

/-- `i32::try_from` on an `i64` value. -/
def i32TryFrom (x : Int) : Except Unit Int :=
  if -2147483648 ≤ x ∧ x < 2147483648 then .ok x else .error ()

/-- `u32::try_from` on an unsigned value. -/
def u32TryFrom (x : Nat) : Except Unit Nat :=
  if x < 4294967296 then .ok x else .error ()

/-- The converted metadata fields of an `IndexEntry` literal. -/
structure ConvertedMeta where
  ctime : IndexTime
  mtime : IndexTime
  dev : Nat
  ino : Nat
  uid : Nat
  gid : Nat
  file_size : Nat
deriving DecidableEq, Repr

/-- The `try_into` conversions of the `git2::IndexEntry` struct literal
(ctime, mtime, dev, ino, uid, gid, file_size; `mode` is already a `u32`).
All conversion failures carry the same opaque error, so they are checked
jointly. -/
def convertMeta (m : Metadata) : Except Unit ConvertedMeta :=
  match i32TryFrom m.ctime.seconds, u32TryFrom m.ctime.nanoseconds,
        i32TryFrom m.mtime.seconds, u32TryFrom m.mtime.nanoseconds,
        u32TryFrom m.dev, u32TryFrom m.ino, u32TryFrom m.uid, u32TryFrom m.gid,
        u32TryFrom m.len with
  | .ok cs, .ok cns, .ok ms, .ok mns, .ok dev, .ok ino, .ok uid, .ok gid, .ok fsz =>
      .ok ⟨⟨cs, cns⟩, ⟨ms, mns⟩, dev, ino, uid, gid, fsz⟩
  | _, _, _, _, _, _, _, _, _ => .error ()

/-- The `IndexEntry` literal the watcher builds: converted metadata, the
file's mode, `flags: 10`, `flags_extended: 0`, the relative path, the blob. -/
def entryOf (relPath : String) (cm : ConvertedMeta) (mode : Nat) (blob : Blob) : IndexEntry :=
  { ctime := cm.ctime, mtime := cm.mtime, dev := cm.dev, ino := cm.ino, mode := mode,
    uid := cm.uid, gid := cm.gid, file_size := cm.file_size, flags := 10,
    flags_extended := 0, path := relPath, id := blob }

/-! ### `add_path`: reuse check, large-file externalization, fresh entries -/

/-- `repo_index.get_path(rel_file_path, 0)`. -/
def getPath (repoIndex : List IndexEntry) (p : String) : Option IndexEntry :=
  repoIndex.find? (fun e => e.path == p)

/-- The reuse check of `add_path`: look the path up in the previous repo
index; when found, compare mtime seconds, mtime nanoseconds, file size and
mode against the file's current metadata, converting the live values to the
entry's 32-bit types first (each conversion can fail, and `&&` short-circuits
exactly as in the source). `some entry` means the previous entry is reused. -/
def tryReuse (repoIndex : List IndexEntry) (relPath : String) (m : Metadata) :
    Except Unit (Option IndexEntry) :=
  match getPath repoIndex relPath with
  | none => .ok none
  | some entry =>
    match i32TryFrom m.mtime.seconds with
    | .error _ => .error ()
    | .ok ms =>
      if entry.mtime.seconds = ms then
        match u32TryFrom m.mtime.nanoseconds with
        | .error _ => .error ()
        | .ok mns =>
          if entry.mtime.nanoseconds = mns then
            match u32TryFrom m.len with
            | .error _ => .error ()
            | .ok fsz =>
              if entry.file_size = fsz then
                if entry.mode = m.mode then .ok (some entry) else .ok none
              else .ok none
          else .ok none
      else .ok none

/-- The git-lfs pointer payload the source assembles line by line. -/
def lfs_pointer (sha : String) (size : Nat) : String :=
  "version https://git-lfs.github.com/spec/v1\n" ++
  "oid sha256:" ++ sha ++ "\n" ++
  "size " ++ toString size ++ "\n"

/-- Build the blob and finish the index entry (`index.add(&git2::IndexEntry
\x7b..\x7d)`): the struct literal's conversions run after the blob exists. -/
def finishEntry (index : List IndexEntry) (relPath : String) (m : Metadata)
    (blob : Blob) (st : Store) : Except Unit (List IndexEntry) × Store :=
  match convertMeta m with
  | .error _ => (.error (), st)
  | .ok cm => (.ok (index ++ [entryOf relPath cm m.mode blob]), st)

/-- The fresh-processing path of `add_path` (entry absent from the previous
index, or some compared field changed): files over 100,000,000 bytes get a
SHA-256 digest of their bytes, a copy into `lfs/objects/<digest>` and a
pointer-text blob; all others get a blob of their real bytes. `content` is
the result of reading the file's bytes (`sha256_digest` / `std::fs::copy` /
`blob_path`), which can itself fail. -/
def add_path_fresh (index : List IndexEntry) (relPath : String) (m : Metadata)
    (content : Except Unit Bytes) (st : Store) : Except Unit (List IndexEntry) × Store :=
  if 100000000 < m.len then
    match content with
    | .error _ => (.error (), st)
    | .ok c =>
      let sha := sha256_digest c
      let st1 := lfsCopy sha c st
      let (blob, st2) := writeBlob (Blob.text (lfs_pointer sha m.len)) st1
      finishEntry index relPath m blob st2
  else
    match content with
    | .error _ => (.error (), st)
    | .ok c =>
      let (blob, st1) := writeBlob (Blob.fileBytes c) st
      finishEntry index relPath m blob st1

/-- `add_path`: read the file's metadata (`meta` is that read's result), try
to reuse the previous index entry verbatim, otherwise process freshly. -/
def add_path (index repoIndex : List IndexEntry) (relPath : String)
    (meta : Except Unit Metadata) (content : Except Unit Bytes) (st : Store) :
    Except Unit (List IndexEntry) × Store :=
  match meta with
  | .error _ => (.error (), st)
  | .ok m =>
    match tryReuse repoIndex relPath m with
    | .error _ => (.error (), st)
    | .ok (some entry) => (.ok (index ++ [entry]), st)
    | .ok none => add_path_fresh index relPath m content st

/-! ### The three sub-index builds -/

/-- One working-directory path as the walk sees it: the ignore-rule check's
result, the metadata read's result, the content read's result. -/
structure WdFile where
  path : String
  ignored : Except Unit Bool
  meta : Except Unit Metadata
  content : Except Unit Bytes
deriving DecidableEq, Repr

/-- `.unwrap_or(true)` on the ignore-rule check. -/
def unwrapOrTrue : Except Unit Bool → Bool
  | .ok b => b
  | .error _ => true

/-- The loop body of `build_wd_index`: skip any path whose ignore check
reports `true` or fails; `add_path` the rest, aborting on the first error. -/
def addPaths (repoIndex : List IndexEntry) (files : List WdFile)
    (index : List IndexEntry) (st : Store) : Except Unit (List IndexEntry) × Store :=
  match files with
  | [] => (.ok index, st)
  | f :: rest =>
    if unwrapOrTrue f.ignored then
      addPaths repoIndex rest index st
    else
      match add_path index repoIndex f.path f.meta f.content st with
      | (.error _, st') => (.error (), st')
      | (.ok index', st') => addPaths repoIndex rest index' st'

/-- `build_wd_index`: list the working directory (the listing itself can
fail) and fold `add_path` over it against the previous repo index. -/
def build_wd_index (allFiles : Except Unit (List WdFile)) (repoIndex : List IndexEntry)
    (st : Store) : Except Unit (List IndexEntry) × Store :=
  match allFiles with
  | .error _ => (.error (), st)
  | .ok files => addPaths repoIndex files [] st

/-- One file under `.git/gb/session`. -/
structure SessionFile where
  path : String
  meta : Except Unit Metadata
  content : Except Unit Bytes
deriving DecidableEq, Repr

/-- `add_session_path`: always a fresh blob of the live bytes (no reuse),
then the usual entry literal. -/
def add_session_path (index : List IndexEntry) (sf : SessionFile) (st : Store) :
    Except Unit (List IndexEntry) × Store :=
  match sf.content with
  | .error _ => (.error (), st)
  | .ok c =>
    match sf.meta with
    | .error _ => (.error (), st)
    | .ok m =>
      let (blob, st1) := writeBlob (Blob.fileBytes c) st
      finishEntry index sf.path m blob st1

/-- The loop body of `build_session_index`. -/
def addSessionPaths (files : List SessionFile) (index : List IndexEntry) (st : Store) :
    Except Unit (List IndexEntry) × Store :=
  match files with
  | [] => (.ok index, st)
  | f :: rest =>
    match add_session_path index f st with
    | (.error _, st') => (.error (), st')
    | (.ok index', st') => addSessionPaths rest index' st'

/-- `build_session_index`: list `.git/gb/session` (fallibly) and add every
file, with no ignore filtering and no reuse. -/
def build_session_index (allFiles : Except Unit (List SessionFile)) (st : Store) :
    Except Unit (List IndexEntry) × Store :=
  match allFiles with
  | .error _ => (.error (), st)
  | .ok files => addSessionPaths files [] st

/-- `build_log_index`: the single `logs/HEAD` file under the logical name
`"HEAD"`; its metadata read, conversions, and blob are all fallible. -/
def build_log_index (logMeta : Except Unit Metadata) (logContent : Except Unit Bytes)
    (st : Store) : Except Unit (List IndexEntry) × Store :=
  match logMeta with
  | .error _ => (.error (), st)
  | .ok m =>
    match convertMeta m with
    | .error _ => (.error (), st)
    | .ok cm =>
      match logContent with
      | .error _ => (.error (), st)
      | .ok c =>
        let (blob, st1) := writeBlob (Blob.fileBytes c) st
        (.ok [entryOf "HEAD" cm m.mode blob], st1)

/-! ### The session-boundary policy and the tick -/

/-- `Duration::new(5 * 60, 0).as_secs()`. -/
def FIVE_MINUTES : Nat := 300

/-- `Duration::new(60 * 60, 0).as_secs()`. -/
def ONE_HOUR : Nat := 3600

/-- `u64` subtraction: well-defined only when it does not underflow; the
error value models the arithmetic-overflow panic of the source's unguarded
`now - ts`. -/
def u64CheckedSub (a b : Nat) : Except Unit Nat :=
  if b ≤ a then .ok (a - b) else .error ()

/-- `ready_to_commit`: with no current session, `false`; otherwise compute
`elapsed_last = now - last_ts` and `elapsed_start = now - start_ts` and close
iff `elapsed_last > FIVE_MINUTES || elapsed_start > ONE_HOUR`. -/
def ready_to_commit (session : Option SessionMeta) (now : Nat) : Except Unit Bool :=
  match session with
  | none => .ok false
  | some s =>
    match u64CheckedSub now s.last_ts with
    | .error _ => .error ()
    | .ok elapsed_last =>
      match u64CheckedSub now s.start_ts with
      | .error _ => .error ()
      | .ok elapsed_start =>
        .ok (decide (FIVE_MINUTES < elapsed_last) || decide (ONE_HOUR < elapsed_start))

/-- Everything one timer tick reads from its collaborators: the wall clock,
the current session record, the previous repo index, and the three listings
with their per-file read results. -/
structure TickInput where
  now : Nat
  session : Option SessionMeta
  repoIndex : List IndexEntry
  wdFiles : Except Unit (List WdFile)
  sessionFiles : Except Unit (List SessionFile)
  logMeta : Except Unit Metadata
  logContent : Except Unit Bytes
deriving DecidableEq, Repr

/-- `check_for_changes`: if ready to commit, build the three sub-indexes,
writing each one's tree as soon as that sub-build finishes, compose the root
tree under `session`/`wd`/`logs` with filemode `0o040000`, write the gb
commit, delete the current session record, and return the committed session
(modelled by its commit id). Statement order — including which tree writes
precede which sub-builds — follows the source. -/
def check_for_changes (inp : TickInput) (st : Store) : Except Unit (Option Nat) × Store :=
  match ready_to_commit inp.session inp.now with
  | .error _ => (.error (), st)
  | .ok false => (.ok none, st)
  | .ok true =>
    match build_wd_index inp.wdFiles inp.repoIndex st with
    | (.error _, st1) => (.error (), st1)
    | (.ok wdIndex, st1) =>
      let (wdTree, st2) := write_tree_to wdIndex st1
      match build_session_index inp.sessionFiles st2 with
      | (.error _, st3) => (.error (), st3)
      | (.ok sessionIndex, st3) =>
        let (sessionTree, st4) := write_tree_to sessionIndex st3
        match build_log_index inp.logMeta inp.logContent st4 with
        | (.error _, st5) => (.error (), st5)
        | (.ok logIndex, st5) =>
          let (logTree, st6) := write_tree_to logIndex st5
          let (tree, st7) := writeRootTree
            [⟨"session", sessionTree, 0o040000⟩,
             ⟨"wd", wdTree, 0o040000⟩,
             ⟨"logs", logTree, 0o040000⟩] st6
          let (commitOid, st8) := write_gb_commit tree st7
          let st9 := delete_current_session st8
          (.ok (some commitOid), st9)

/-! ### Predicates the claims use, and concrete inputs for witnesses -/

/-- The four compared fields of the reuse check agree with the live file. -/
def matches4 (entry : IndexEntry) (m : Metadata) : Prop :=
  entry.mtime.seconds = m.mtime.seconds ∧
  entry.mtime.nanoseconds = m.mtime.nanoseconds ∧
  entry.file_size = m.len ∧
  entry.mode = m.mode

instance (entry : IndexEntry) (m : Metadata) : Decidable (matches4 entry m) := by
  unfold matches4; infer_instance

/-- The compared fields of a previous index entry lie in their `git2` machine
ranges (`i32` mtime seconds, `u32` nanoseconds and size), as every entry a
real `git2::Index` hands out does. -/
def entryWf (entry : IndexEntry) : Prop :=
  -2147483648 ≤ entry.mtime.seconds ∧ entry.mtime.seconds < 2147483648 ∧
  entry.mtime.nanoseconds < 4294967296 ∧ entry.file_size < 4294967296

instance (entry : IndexEntry) : Decidable (entryWf entry) := by
  unfold entryWf; infer_instance

/-- The live file's compared fields fit the entry's 32-bit types, so none of
the reuse check's conversions fails. -/
def metaFits (m : Metadata) : Prop :=
  -2147483648 ≤ m.mtime.seconds ∧ m.mtime.seconds < 2147483648 ∧
  m.mtime.nanoseconds < 4294967296 ∧ m.len < 4294967296

instance (m : Metadata) : Decidable (metaFits m) := by
  unfold metaFits; infer_instance

/-- The tick-owned store state a failed snapshot attempt must leave alone:
root trees, commits, the history reference, and the session record. -/
def coreUntouched (st st' : Store) : Prop :=
  st'.rootTrees = st.rootTrees ∧ st'.commits = st.commits ∧
  st'.gbRef = st.gbRef ∧ st'.sessionDeleted = st.sessionDeleted

instance (st st' : Store) : Decidable (coreUntouched st st') := by
  unfold coreUntouched; infer_instance

/-- An all-zero metadata record with a regular-file mode. -/
def meta0 : Metadata :=
  { mtime := ⟨0, 0⟩, ctime := ⟨0, 0⟩, dev := 0, ino := 0, mode := 33188,
    uid := 0, gid := 0, len := 0 }

/-- Metadata of a file just over the externalization threshold. -/
def metaBig : Metadata := { meta0 with len := 100000001 }

/-- Metadata of a file over `u32::MAX` bytes. -/
def metaHuge : Metadata := { meta0 with len := 4294967296 }

/-- A previous index entry whose compared fields match `meta0`. -/
def entry0 : IndexEntry :=
  { ctime := ⟨0, 0⟩, mtime := ⟨0, 0⟩, dev := 0, ino := 0, mode := 33188,
    uid := 0, gid := 0, file_size := 0, flags := 10, flags_extended := 0,
    path := "a", id := Blob.fileBytes [1, 2, 3] }

/-- A tick whose session sub-build fails after the wd tree is written: open
session, ready to close, empty working directory, session listing error. -/
def inp0 : TickInput :=
  { now := 4000, session := some ⟨0, 0⟩, repoIndex := [], wdFiles := .ok [],
    sessionFiles := .error (), logMeta := .error (), logContent := .error () }

/-- A tick that snapshots successfully: open session past the one-hour bound,
empty working directory, empty session directory, readable log file. -/
def inp1 : TickInput :=
  { now := 4000, session := some ⟨0, 0⟩, repoIndex := [], wdFiles := .ok [],
    sessionFiles := .ok [], logMeta := .ok meta0, logContent := .ok [] }

/-- A working-directory file over `u32::MAX` bytes, not ignored, readable. -/
def fHuge : WdFile :=
  { path := "huge", ignored := .ok false, meta := .ok metaHuge, content := .ok [] }

/-- A tick whose working directory holds `fHuge`. -/
def inp2 : TickInput :=
  { now := 4000, session := some ⟨0, 0⟩, repoIndex := [], wdFiles := .ok [fHuge],
    sessionFiles := .ok [], logMeta := .ok meta0, logContent := .ok [] }

end GitButler

namespace GitButler

/-! ### Theorems -/

/-- C1: for an open session (with the wall clock not behind either
timestamp), `ready_to_commit` decides closure iff `now - last_ts > 300` or
`now - start_ts > 3600`; at exactly 300 and 3600 no closure occurs; and with
no open session the tick commits nothing and leaves the store untouched. -/
theorem c1_closure_decision :
    (∀ (now : Nat) (s : SessionMeta), s.last_ts ≤ now → s.start_ts ≤ now →
      (ready_to_commit (some s) now = .ok true ↔
        (300 < now - s.last_ts ∨ 3600 < now - s.start_ts))) ∧
    (∀ (now : Nat) (s : SessionMeta), now - s.last_ts = 300 → now - s.start_ts = 3600 →
      ready_to_commit (some s) now = .ok false) ∧
    (∀ (inp : TickInput) (st : Store), inp.session = none →
      check_for_changes inp st = (.ok none, st)) := by
  refine ⟨fun now s h1 h2 => ?_, fun now s hb1 hb2 => ?_, fun inp st h => ?_⟩
  · simp [ready_to_commit, u64CheckedSub, h1, h2, FIVE_MINUTES, ONE_HOUR]
  · have hl : s.last_ts ≤ now := by omega
    have hs : s.start_ts ≤ now := by omega
    simp [ready_to_commit, u64CheckedSub, hl, hs, hb1, hb2, FIVE_MINUTES, ONE_HOUR]
  · simp [check_for_changes, ready_to_commit, h]

/-- Witness for C1 at concrete inputs: a session idle for 301 seconds closes,
one at exactly the boundaries does not, and an idle tick writes nothing. -/
theorem c1_closure_decision_witness :
    ready_to_commit (some ⟨0, 0⟩) 301 = .ok true ∧
    ready_to_commit (some ⟨400, 3700⟩) 4000 = .ok false ∧
    check_for_changes { inp0 with session := none } Store.init = (.ok none, Store.init) :=
  ⟨(c1_closure_decision.1 301 ⟨0, 0⟩ (by decide) (by decide)).mpr (Or.inl (by decide)),
   c1_closure_decision.2.1 4000 ⟨400, 3700⟩ (by decide) (by decide),
   c1_closure_decision.2.2 { inp0 with session := none } Store.init (by decide)⟩

/-- C9: `ready_to_commit` underflows (hits the modelled panic) on an open
session exactly when the wall clock is behind `last_ts` or `start_ts`; it is
well-defined precisely under the precondition `last_ts ≤ now ∧ start_ts ≤ now`. -/
theorem c9_underflow :
    ∀ (now : Nat) (s : SessionMeta),
      (ready_to_commit (some s) now = .error ()) ↔
        (now < s.last_ts ∨ now < s.start_ts) := by
  intro now s
  rcases le_or_lt s.last_ts now with h1 | h1 <;>
    rcases le_or_lt s.start_ts now with h2 | h2 <;>
      simp [ready_to_commit, u64CheckedSub, h1, h2, Nat.not_le_of_lt, Nat.lt_of_lt_of_le]

/-- Witness for C9: a session whose `last_ts` is ahead of the clock makes the
tick's policy check fail. -/
theorem c9_underflow_witness :
    ready_to_commit (some ⟨5, 10⟩) 3 = .error () :=
  (c9_underflow 3 ⟨5, 10⟩).mpr (Or.inl (by decide))

end GitButler

namespace GitButler

/-- `writeChain` only appends to the commit log. -/
theorem writeChain_commits_extend (trees : List RootTreeOid) :
    ∀ (st : Store), ∃ l, (writeChain trees st).commits = st.commits ++ l := by
  induction trees with
  | nil => intro st; exact ⟨[], by simp [writeChain]⟩
  | cons t ts ih =>
    intro st
    obtain ⟨l, hl⟩ := ih (write_gb_commit t st).2
    refine ⟨?_, ?_⟩
    · exact (match st.gbRef with
        | some last => Commit.mk t [last] "gitbutler check"
        | none => Commit.mk t [] "gitbutler check") :: l
    · rw [writeChain, hl]
      cases h : st.gbRef <;> simp [write_gb_commit, h]

/-- C4: `write_gb_commit` appends a commit whose parent list is exactly the
resolved target of `refs/gitbutler/current` (empty when the reference does
not resolve) and repoints the reference to the new commit; consequently any
sequence of snapshot writes appends a strictly linear chain in which each
commit's sole parent is the previous one. -/
theorem c4_commit_chain :
    (∀ (tree : RootTreeOid) (st : Store),
      (write_gb_commit tree st).2.commits =
        st.commits ++ [⟨tree, parentsOf st.gbRef, "gitbutler check"⟩] ∧
      (write_gb_commit tree st).1 = st.commits.length ∧
      (write_gb_commit tree st).2.gbRef = some (write_gb_commit tree st).1) ∧
    (∀ (trees : List RootTreeOid) (st : Store),
      linearFrom st.gbRef st.commits.length
        ((writeChain trees st).commits.drop st.commits.length) = true) := by
  constructor
  · intro tree st
    cases h : st.gbRef <;> simp [write_gb_commit, h, parentsOf]
  · intro trees
    induction trees with
    | nil => intro st; simp [writeChain, List.drop_length, linearFrom]
    | cons t ts ih =>
      intro st
      have hstep1 : (write_gb_commit t st).2.commits =
          st.commits ++ [Commit.mk t (parentsOf st.gbRef) "gitbutler check"] := by
        cases h : st.gbRef <;> simp [write_gb_commit, h, parentsOf]
      have hstep2 : (write_gb_commit t st).2.gbRef = some st.commits.length := by
        cases h : st.gbRef <;> simp [write_gb_commit, h]
      obtain ⟨l, hl⟩ := writeChain_commits_extend ts (write_gb_commit t st).2
      have hih := ih (write_gb_commit t st).2
      rw [hl, hstep1, hstep2, List.drop_left] at hih
      have hlen : (st.commits ++
          [Commit.mk t (parentsOf st.gbRef) "gitbutler check"]).length =
          st.commits.length + 1 := by simp
      rw [hlen] at hih
      show linearFrom st.gbRef st.commits.length
          ((writeChain ts (write_gb_commit t st).2).commits.drop st.commits.length) = true
      rw [hl, hstep1, List.append_assoc, List.drop_left]
      simp only [List.singleton_append]
      simp [linearFrom, hih]

end GitButler

namespace GitButler

/-- C7: in the working-directory build, a path whose ignore check fails is
treated exactly like a path reported ignored: it is skipped, contributes no
index entry and no store write, and does not abort the build — the walk over
the remaining files is unchanged. -/
theorem c7_ignore_fail_safe :
    ∀ (repoIndex : List IndexEntry) (pre post : List WdFile) (f : WdFile),
      (f.ignored = .error () ∨ f.ignored = .ok true) →
      ∀ (index : List IndexEntry) (st : Store),
        addPaths repoIndex (pre ++ f :: post) index st =
          addPaths repoIndex (pre ++ post) index st := by
  intro repoIndex pre post f hf
  have hskip : unwrapOrTrue f.ignored = true := by
    rcases hf with h | h <;> simp [unwrapOrTrue, h]
  induction pre with
  | nil => intro index st; simp [addPaths, hskip]
  | cons g gs ih =>
    intro index st
    simp only [List.cons_append, addPaths]
    cases hg : unwrapOrTrue g.ignored
    · simp only [Bool.false_eq_true, if_false]
      cases hadd : add_path index repoIndex g.path g.meta g.content st with
      | mk r st' => cases r <;> simp [ih]
    · simp only [if_true]
      exact ih index st

end GitButler

namespace GitButler

/-- A found entry whose four compared fields match (and whose fields are in
their machine ranges) passes the reuse check. -/
theorem tryReuse_of_matches (repoIndex : List IndexEntry) (relPath : String)
    (m : Metadata) (entry : IndexEntry)
    (hget : getPath repoIndex relPath = some entry)
    (hwf : entryWf entry) (hm : matches4 entry m) :
    tryReuse repoIndex relPath m = .ok (some entry) := by
  obtain ⟨h1, h2, h3, h4⟩ := hm
  obtain ⟨w1, w2, w3, w4⟩ := hwf
  have c1 : -2147483648 ≤ m.mtime.seconds ∧ m.mtime.seconds < 2147483648 := by
    constructor <;> omega
  have c2 : m.mtime.nanoseconds < 4294967296 := by omega
  have c3 : m.len < 4294967296 := by omega
  simp [tryReuse, hget, i32TryFrom, u32TryFrom, c1, c2, c3, h1, h2, h3, h4]

/-- A found entry with some compared field changed (with the live values in
range, so no conversion fails) falls through the reuse check. -/
theorem tryReuse_of_mismatch (repoIndex : List IndexEntry) (relPath : String)
    (m : Metadata) (entry : IndexEntry)
    (hget : getPath repoIndex relPath = some entry)
    (hfits : metaFits m) (hm : ¬ matches4 entry m) :
    tryReuse repoIndex relPath m = .ok none := by
  obtain ⟨f1, f2, f3, f4⟩ := hfits
  have c1 : -2147483648 ≤ m.mtime.seconds ∧ m.mtime.seconds < 2147483648 := ⟨f1, f2⟩
  by_cases e1 : entry.mtime.seconds = m.mtime.seconds
  · by_cases e2 : entry.mtime.nanoseconds = m.mtime.nanoseconds
    · by_cases e3 : entry.file_size = m.len
      · by_cases e4 : entry.mode = m.mode
        · exact absurd ⟨e1, e2, e3, e4⟩ hm
        · simp [tryReuse, hget, i32TryFrom, u32TryFrom, c1, f3, f4, e1, e2, e3, e4]
      · simp [tryReuse, hget, i32TryFrom, u32TryFrom, c1, f3, f4, e1, e2, e3]
    · simp [tryReuse, hget, i32TryFrom, u32TryFrom, c1, f3, f4, e1, e2]
  · simp [tryReuse, hget, i32TryFrom, u32TryFrom, c1, f3, f4, e1]

/-- C3: `add_path` reuses the previous index entry verbatim — adding it
unchanged and leaving the store untouched, whatever the file's content reads
return (the content is never consulted) — exactly when the path is found in
the previous index and all four of mtime seconds, mtime nanoseconds, size and
mode are unchanged; when the path is absent or any compared field differs,
the file goes through the fresh-processing path. -/
theorem c3_index_reuse :
    (∀ (index repoIndex : List IndexEntry) (relPath : String) (m : Metadata)
       (st : Store) (entry : IndexEntry),
       getPath repoIndex relPath = some entry → entryWf entry →
       ((matches4 entry m →
          ∀ (content : Except Unit Bytes),
            add_path index repoIndex relPath (.ok m) content st =
              (.ok (index ++ [entry]), st)) ∧
        (¬ matches4 entry m → metaFits m →
          ∀ (content : Except Unit Bytes),
            add_path index repoIndex relPath (.ok m) content st =
              add_path_fresh index relPath m content st))) ∧
    (∀ (index repoIndex : List IndexEntry) (relPath : String) (m : Metadata)
       (st : Store) (content : Except Unit Bytes),
       getPath repoIndex relPath = none →
       add_path index repoIndex relPath (.ok m) content st =
         add_path_fresh index relPath m content st) := by
  constructor
  · intro index repoIndex relPath m st entry hget hwf
    constructor
    · intro hm content
      simp [add_path, tryReuse_of_matches repoIndex relPath m entry hget hwf hm]
    · intro hm hfits content
      simp [add_path, tryReuse_of_mismatch repoIndex relPath m entry hget hfits hm]
  · intro index repoIndex relPath m st content hget
    simp [add_path, tryReuse, hget]

/-- Witness for C3: an unchanged file reuses its previous entry (even with an
unreadable content stream), and a grown file goes through fresh processing. -/
theorem c3_index_reuse_witness :
    add_path [] [entry0] "a" (.ok meta0) (.error ()) Store.init =
      (.ok ([] ++ [entry0]), Store.init) ∧
    add_path [] [entry0] "a" (.ok { meta0 with len := 7 }) (.ok [1]) Store.init =
      add_path_fresh [] "a" { meta0 with len := 7 } (.ok [1]) Store.init :=
  ⟨((c3_index_reuse.1 [] [entry0] "a" meta0 Store.init entry0 (by decide)
      (by decide)).1 (by decide) (.error ())),
   ((c3_index_reuse.1 [] [entry0] "a" { meta0 with len := 7 } Store.init entry0 (by decide)
      (by decide)).2 (by decide) (by decide) (.ok [1]))⟩

end GitButler

namespace GitButler

/-- C2: for a file that is not reused from the previous index, `add_path`
stores — whenever it produces an entry at all — a pointer-text blob (fixed
version line, `oid sha256:` followed by the streamed digest, `size` followed
by the byte count) and copies the real bytes into the external store keyed by
that digest when the size exceeds 100,000,000; at or below the threshold it
stores the file's real bytes and touches no external store. -/
theorem c2_large_file_externalization :
    ∀ (index repoIndex : List IndexEntry) (relPath : String) (m : Metadata)
      (c : Bytes) (st : Store) (index' : List IndexEntry),
      tryReuse repoIndex relPath m = .ok none →
      ((100000000 < m.len →
        (add_path index repoIndex relPath (.ok m) (.ok c) st).1 = .ok index' →
        (∃ e, index' = index ++ [e] ∧
          e.id = Blob.text ("version https://git-lfs.github.com/spec/v1\n" ++
            "oid sha256:" ++ sha256_digest c ++ "\n" ++
            "size " ++ toString m.len ++ "\n")) ∧
        (sha256_digest c, c) ∈
          (add_path index repoIndex relPath (.ok m) (.ok c) st).2.lfs) ∧
       (m.len ≤ 100000000 →
        (add_path index repoIndex relPath (.ok m) (.ok c) st).1 = .ok index' →
        (∃ e, index' = index ++ [e] ∧ e.id = Blob.fileBytes c) ∧
        (add_path index repoIndex relPath (.ok m) (.ok c) st).2.lfs = st.lfs)) := by
  intro index repoIndex relPath m c st index' htr
  constructor
  · intro hbig hok
    simp only [add_path, htr, add_path_fresh, if_pos hbig, writeBlob, lfsCopy,
      finishEntry] at hok ⊢
    cases hcm : convertMeta m with
    | error e => rw [hcm] at hok; simp at hok
    | ok cm =>
      rw [hcm] at hok
      have hok2 : Except.ok (index ++ [entryOf relPath cm m.mode
          (Blob.text (lfs_pointer (sha256_digest c) m.len))]) = Except.ok index' := hok
      refine ⟨⟨entryOf relPath cm m.mode (Blob.text (lfs_pointer (sha256_digest c) m.len)),
        (Except.ok.inj hok2).symm, rfl⟩, ?_⟩
      show (sha256_digest c, c) ∈ st.lfs ++ [(sha256_digest c, c)]
      simp
  · intro hsmall hok
    have hnbig : ¬ 100000000 < m.len := by omega
    simp only [add_path, htr, add_path_fresh, if_neg hnbig, writeBlob,
      finishEntry] at hok ⊢
    cases hcm : convertMeta m with
    | error e => rw [hcm] at hok; simp at hok
    | ok cm =>
      rw [hcm] at hok
      have hok2 : Except.ok (index ++ [entryOf relPath cm m.mode (Blob.fileBytes c)]) =
          Except.ok index' := hok
      exact ⟨⟨entryOf relPath cm m.mode (Blob.fileBytes c),
        (Except.ok.inj hok2).symm, rfl⟩, rfl⟩

/-- Witness for C2: a 100,000,001-byte file (with an empty modelled content
stream) yields the pointer blob and the external-store copy; an empty file
yields a plain blob of its bytes and no copy. -/
theorem c2_large_file_externalization_witness :
    ((∃ e, [entryOf "big" ⟨⟨0, 0⟩, ⟨0, 0⟩, 0, 0, 0, 0, 100000001⟩ 33188
        (Blob.text (lfs_pointer (sha256_digest []) 100000001))] = [] ++ [e] ∧
      e.id = Blob.text ("version https://git-lfs.github.com/spec/v1\n" ++
        "oid sha256:" ++ sha256_digest [] ++ "\n" ++
        "size " ++ toString metaBig.len ++ "\n")) ∧
     (sha256_digest [], []) ∈
       (add_path [] [] "big" (.ok metaBig) (.ok []) Store.init).2.lfs) ∧
    ((∃ e, [entryOf "small" ⟨⟨0, 0⟩, ⟨0, 0⟩, 0, 0, 0, 0, 0⟩ 33188
        (Blob.fileBytes [])] = [] ++ [e] ∧ e.id = Blob.fileBytes []) ∧
     (add_path [] [] "small" (.ok meta0) (.ok []) Store.init).2.lfs = Store.init.lfs) :=
  ⟨(c2_large_file_externalization [] [] "big" metaBig [] Store.init
      [entryOf "big" ⟨⟨0, 0⟩, ⟨0, 0⟩, 0, 0, 0, 0, 100000001⟩ 33188
        (Blob.text (lfs_pointer (sha256_digest []) 100000001))]
      (by decide)).1 (by decide) (by decide),
   (c2_large_file_externalization [] [] "small" meta0 [] Store.init
      [entryOf "small" ⟨⟨0, 0⟩, ⟨0, 0⟩, 0, 0, 0, 0, 0⟩ 33188 (Blob.fileBytes [])]
      (by decide)).2 (by decide) (by decide)⟩

end GitButler

namespace GitButler

/-- A file over `u32::MAX` bytes makes the `IndexEntry` struct literal's
`file_size` conversion (or an earlier one) fail. -/
theorem convertMeta_error_of_oversize (m : Metadata) (h : 4294967296 ≤ m.len) :
    convertMeta m = .error () := by
  have h9 : u32TryFrom m.len = .error () := by
    simp only [u32TryFrom, ite_eq_right_iff]
    intro hc; omega
  unfold convertMeta
  rcases i32TryFrom m.ctime.seconds with _ | cs <;>
    rcases u32TryFrom m.ctime.nanoseconds with _ | cns <;>
      rcases i32TryFrom m.mtime.seconds with _ | ms <;>
        rcases u32TryFrom m.mtime.nanoseconds with _ | mns <;>
          rcases u32TryFrom m.dev with _ | dev <;>
            rcases u32TryFrom m.ino with _ | ino <;>
              rcases u32TryFrom m.uid with _ | uid <;>
                rcases u32TryFrom m.gid with _ | gid <;>
                  simp [h9]

/-- Reuse can only succeed when the file's length passes the `u32` check. -/
theorem tryReuse_some_len_lt (repoIndex : List IndexEntry) (relPath : String)
    (m : Metadata) (entry : IndexEntry)
    (h : tryReuse repoIndex relPath m = .ok (some entry)) : m.len < 4294967296 := by
  by_contra hge
  push_neg at hge
  have h9 : u32TryFrom m.len = .error () := by
    simp only [u32TryFrom, ite_eq_right_iff]
    intro hc; omega
  unfold tryReuse at h
  rcases hget : getPath repoIndex relPath with _ | e <;> rw [hget] at h <;>
    dsimp only [] at h
  · exact absurd h (by simp)
  · rcases hms : i32TryFrom m.mtime.seconds with u | ms <;> rw [hms] at h <;>
      dsimp only [] at h
    · exact absurd h (by simp)
    · by_cases e1 : e.mtime.seconds = ms
      · rw [if_pos e1] at h
        rcases hns : u32TryFrom m.mtime.nanoseconds with u | ns <;> rw [hns] at h <;>
          dsimp only [] at h
        · exact absurd h (by simp)
        · by_cases e2 : e.mtime.nanoseconds = ns
          · rw [if_pos e2, h9] at h
            dsimp only [] at h
            exact absurd h (by simp)
          · rw [if_neg e2] at h
            exact absurd h (by simp)
      · rw [if_neg e1] at h
        exact absurd h (by simp)

/-- The wd walk aborts as soon as it reaches a non-ignored file over
`u32::MAX` bytes (or earlier). -/
theorem addPaths_error_of_oversize (repoIndex : List IndexEntry) (f : WdFile)
    (m : Metadata) (hig : f.ignored = .ok false) (hmeta : f.meta = .ok m)
    (hge : 4294967296 ≤ m.len) :
    ∀ (files : List WdFile) (index : List IndexEntry) (st : Store), f ∈ files →
      (addPaths repoIndex files index st).1 = .error () := by
  have hadd : ∀ (index repoIndex' : List IndexEntry) (relPath : String)
      (content : Except Unit Bytes) (st : Store),
      (add_path index repoIndex' relPath (.ok m) content st).1 = .error () := by
    intro index repoIndex' relPath content st
    have hcm := convertMeta_error_of_oversize m hge
    rcases htr : tryReuse repoIndex' relPath m with _ | o
    · simp [add_path, htr]
    · rcases o with _ | entry
      · have hbig : 100000000 < m.len := by omega
        rcases content with _ | c
        · simp [add_path, htr, add_path_fresh, hbig]
        · simp [add_path, htr, add_path_fresh, hbig, writeBlob, lfsCopy, finishEntry, hcm]
      · exact absurd (tryReuse_some_len_lt repoIndex' relPath m entry htr) (by omega)
  intro files
  induction files with
  | nil => intro index st hmem; simp at hmem
  | cons g gs ih =>
    intro index st hmem
    rcases List.mem_cons.mp hmem with heq | hmem'
    · have hig' : g.ignored = .ok false := heq ▸ hig
      have hmeta' : g.meta = .ok m := heq ▸ hmeta
      have hskip : unwrapOrTrue g.ignored = false := by simp [unwrapOrTrue, hig']
      have hthis : (add_path index repoIndex g.path g.meta g.content st).1 = .error () := by
        rw [hmeta']; exact hadd index repoIndex g.path g.content st
      rcases hap : add_path index repoIndex g.path g.meta g.content st with ⟨r, st'⟩
      rw [hap] at hthis
      replace hthis : r = .error () := hthis
      subst hthis
      simp [addPaths, hskip, hap]
    · cases hg : unwrapOrTrue g.ignored
      · rcases hap : add_path index repoIndex g.path g.meta g.content st with ⟨r, st'⟩
        rcases r with _ | index'
        · simp [addPaths, hg, hap]
        · simp only [addPaths, hg, Bool.false_eq_true, if_false, hap]
          exact ih index' st' hmem'
      · simp only [addPaths, hg, if_true]
        exact ih index st hmem'

/-- C10: a working-directory file over `u32::MAX` bytes makes `add_path`
return an error instead of an index entry (the 32-bit `file_size` conversion,
or the reuse comparison's `u32::try_from`, fails), and any ready tick whose
listing contains such a non-ignored file aborts its whole snapshot build. -/
theorem c10_oversize_aborts :
    (∀ (index repoIndex : List IndexEntry) (relPath : String) (m : Metadata)
       (content : Except Unit Bytes) (st : Store),
       4294967296 ≤ m.len →
       (add_path index repoIndex relPath (.ok m) content st).1 = .error ()) ∧
    (∀ (inp : TickInput) (st : Store) (files : List WdFile) (f : WdFile) (m : Metadata),
       inp.wdFiles = .ok files → f ∈ files → f.ignored = .ok false → f.meta = .ok m →
       4294967296 ≤ m.len → ready_to_commit inp.session inp.now = .ok true →
       (check_for_changes inp st).1 = .error ()) := by
  constructor
  · intro index repoIndex relPath m content st hge
    have hcm := convertMeta_error_of_oversize m hge
    rcases htr : tryReuse repoIndex relPath m with _ | o
    · simp [add_path, htr]
    · rcases o with _ | entry
      · have hbig : 100000000 < m.len := by omega
        rcases content with _ | c
        · simp [add_path, htr, add_path_fresh, hbig]
        · simp [add_path, htr, add_path_fresh, hbig, writeBlob, lfsCopy, finishEntry, hcm]
      · exact absurd (tryReuse_some_len_lt repoIndex relPath m entry htr) (by omega)
  · intro inp st files f m hwd hmem hig hmeta hge hready
    have hb : (build_wd_index inp.wdFiles inp.repoIndex st).1 = .error () := by
      rw [hwd]
      simp only [build_wd_index]
      exact addPaths_error_of_oversize inp.repoIndex f m hig hmeta hge files [] st hmem
    rcases hbw : build_wd_index inp.wdFiles inp.repoIndex st with ⟨r, st1⟩
    rw [hbw] at hb
    replace hb : r = .error () := hb
    subst hb
    simp [check_for_changes, hready, hbw]

/-- Witness for C10: a 4,294,967,296-byte file aborts both `add_path` and the
whole tick. -/
theorem c10_oversize_aborts_witness :
    (add_path [] [] "huge" (.ok metaHuge) (.ok []) Store.init).1 = .error () ∧
    (check_for_changes inp2 Store.init).1 = .error () :=
  ⟨c10_oversize_aborts.1 [] [] "huge" metaHuge (.ok []) Store.init (by decide),
   c10_oversize_aborts.2 inp2 Store.init [fHuge] fHuge metaHuge (by decide)
     (by decide) (by decide) (by decide) (by decide) (by decide)⟩

end GitButler

namespace GitButler

/-- `coreUntouched` is reflexive. -/
theorem coreUntouched_refl (st : Store) : coreUntouched st st := ⟨rfl, rfl, rfl, rfl⟩

/-- `coreUntouched` is transitive. -/
theorem coreUntouched_trans {st st' st'' : Store}
    (h1 : coreUntouched st st') (h2 : coreUntouched st' st'') : coreUntouched st st'' :=
  ⟨h2.1.trans h1.1, h2.2.1.trans h1.2.1, h2.2.2.1.trans h1.2.2.1, h2.2.2.2.trans h1.2.2.2⟩

/-- Writing an index tree touches neither root trees, commits, the reference,
nor the session record. -/
theorem write_tree_to_core (index : List IndexEntry) (st : Store) :
    coreUntouched st (write_tree_to index st).2 := ⟨rfl, rfl, rfl, rfl⟩

/-- `add_path_fresh` writes only blobs and `lfs` copies. -/
theorem add_path_fresh_core (index : List IndexEntry) (relPath : String) (m : Metadata)
    (content : Except Unit Bytes) (st : Store) :
    coreUntouched st (add_path_fresh index relPath m content st).2 := by
  unfold add_path_fresh
  split
  · cases content with
    | error u => exact ⟨rfl, rfl, rfl, rfl⟩
    | ok c =>
      unfold finishEntry writeBlob lfsCopy
      cases convertMeta m <;> exact ⟨rfl, rfl, rfl, rfl⟩
  · cases content with
    | error u => exact ⟨rfl, rfl, rfl, rfl⟩
    | ok c =>
      unfold finishEntry writeBlob
      cases convertMeta m <;> exact ⟨rfl, rfl, rfl, rfl⟩

/-- `add_path` writes only blobs and `lfs` copies. -/
theorem add_path_core (index repoIndex : List IndexEntry) (relPath : String)
    (meta : Except Unit Metadata) (content : Except Unit Bytes) (st : Store) :
    coreUntouched st (add_path index repoIndex relPath meta content st).2 := by
  cases meta with
  | error u => exact ⟨rfl, rfl, rfl, rfl⟩
  | ok m =>
    unfold add_path
    dsimp only []
    cases tryReuse repoIndex relPath m with
    | error u => exact ⟨rfl, rfl, rfl, rfl⟩
    | ok o =>
      cases o with
      | none => exact add_path_fresh_core index relPath m content st
      | some entry => exact ⟨rfl, rfl, rfl, rfl⟩

/-- The wd walk writes only blobs and `lfs` copies. -/
theorem addPaths_core (repoIndex : List IndexEntry) :
    ∀ (files : List WdFile) (index : List IndexEntry) (st : Store),
      coreUntouched st (addPaths repoIndex files index st).2 := by
  intro files
  induction files with
  | nil => intro index st; exact ⟨rfl, rfl, rfl, rfl⟩
  | cons g gs ih =>
    intro index st
    cases hg : unwrapOrTrue g.ignored
    · rcases hap : add_path index repoIndex g.path g.meta g.content st with ⟨r, st'⟩
      have hcore : coreUntouched st st' := by
        have hc := add_path_core index repoIndex g.path g.meta g.content st
        rw [hap] at hc
        exact hc
      cases r with
      | error u =>
        simp only [addPaths, hg, Bool.false_eq_true, if_false, hap]
        exact hcore
      | ok index' =>
        simp only [addPaths, hg, Bool.false_eq_true, if_false, hap]
        exact coreUntouched_trans hcore (ih index' st')
    · simp only [addPaths, hg, if_true]
      exact ih index st

/-- The wd sub-build writes only blobs and `lfs` copies. -/
theorem build_wd_index_core (allFiles : Except Unit (List WdFile))
    (repoIndex : List IndexEntry) (st : Store) :
    coreUntouched st (build_wd_index allFiles repoIndex st).2 := by
  cases allFiles with
  | error u => exact ⟨rfl, rfl, rfl, rfl⟩
  | ok files => exact addPaths_core repoIndex files [] st

/-- `add_session_path` writes only blobs. -/
theorem add_session_path_core (index : List IndexEntry) (sf : SessionFile) (st : Store) :
    coreUntouched st (add_session_path index sf st).2 := by
  unfold add_session_path
  cases sf.content with
  | error u => exact ⟨rfl, rfl, rfl, rfl⟩
  | ok c =>
    dsimp only []
    cases sf.meta with
    | error u => exact ⟨rfl, rfl, rfl, rfl⟩
    | ok m =>
      dsimp only [finishEntry, writeBlob]
      cases convertMeta m <;> exact ⟨rfl, rfl, rfl, rfl⟩

/-- The session walk writes only blobs. -/
theorem addSessionPaths_core :
    ∀ (files : List SessionFile) (index : List IndexEntry) (st : Store),
      coreUntouched st (addSessionPaths files index st).2 := by
  intro files
  induction files with
  | nil => intro index st; exact ⟨rfl, rfl, rfl, rfl⟩
  | cons g gs ih =>
    intro index st
    rcases hap : add_session_path index g st with ⟨r, st'⟩
    have hcore : coreUntouched st st' := by
      have hc := add_session_path_core index g st
      rw [hap] at hc
      exact hc
    cases r with
    | error u =>
      simp only [addSessionPaths, hap]
      exact hcore
    | ok index' =>
      simp only [addSessionPaths, hap]
      exact coreUntouched_trans hcore (ih index' st')

/-- The session sub-build writes only blobs. -/
theorem build_session_index_core (allFiles : Except Unit (List SessionFile)) (st : Store) :
    coreUntouched st (build_session_index allFiles st).2 := by
  cases allFiles with
  | error u => exact ⟨rfl, rfl, rfl, rfl⟩
  | ok files => exact addSessionPaths_core files [] st

/-- The log sub-build writes only blobs. -/
theorem build_log_index_core (logMeta : Except Unit Metadata)
    (logContent : Except Unit Bytes) (st : Store) :
    coreUntouched st (build_log_index logMeta logContent st).2 := by
  unfold build_log_index
  cases logMeta with
  | error u => exact ⟨rfl, rfl, rfl, rfl⟩
  | ok m =>
    dsimp only []
    cases convertMeta m with
    | error u => exact ⟨rfl, rfl, rfl, rfl⟩
    | ok cm =>
      cases logContent with
      | error u => exact ⟨rfl, rfl, rfl, rfl⟩
      | ok c => exact ⟨rfl, rfl, rfl, rfl⟩

/-- C5 counterexample: a tick whose session sub-build fails aborts, yet a
tree (the already-written wd tree) has been written to the store — tree
writes do not all wait for every sub-build to succeed. -/
theorem c5_counterexample :
    (check_for_changes inp0 Store.init).1 = .error () ∧
    (check_for_changes inp0 Store.init).2.trees = [[]] ∧
    (check_for_changes inp0 Store.init).2.trees ≠ Store.init.trees := by
  refine ⟨by decide, by decide, by decide⟩

/-- C5 as amended: on any failing tick no root tree, no commit, no reference
move and no session-record deletion happen — though sub-trees written before
the failing sub-build remain. -/
theorem c5_failure_leaves_core :
    ∀ (inp : TickInput) (st : Store),
      (check_for_changes inp st).1 = .error () →
      coreUntouched st (check_for_changes inp st).2 := by
  intro inp st h
  unfold check_for_changes at h ⊢
  cases hr : ready_to_commit inp.session inp.now with
  | error u => exact ⟨rfl, rfl, rfl, rfl⟩
  | ok b =>
    rw [hr] at h
    cases b with
    | false => dsimp only [] at h; exact absurd h (by simp)
    | true =>
      dsimp only [] at h ⊢
      rcases hbw : build_wd_index inp.wdFiles inp.repoIndex st with ⟨r1, st1⟩
      have hc1 : coreUntouched st st1 := by
        have hc := build_wd_index_core inp.wdFiles inp.repoIndex st
        rw [hbw] at hc
        exact hc
      cases r1 with
      | error u => exact hc1
      | ok wdIndex =>
        dsimp only [] at h ⊢
        rcases hbs : build_session_index inp.sessionFiles
            (write_tree_to wdIndex st1).2 with ⟨r2, st3⟩
        have hc2 : coreUntouched st st3 := by
          have hc := build_session_index_core inp.sessionFiles (write_tree_to wdIndex st1).2
          rw [hbs] at hc
          exact coreUntouched_trans
            (coreUntouched_trans hc1 (write_tree_to_core wdIndex st1)) hc
        cases r2 with
        | error u => exact hc2
        | ok sessionIndex =>
          dsimp only [] at h ⊢
          rcases hbl : build_log_index inp.logMeta inp.logContent
              (write_tree_to sessionIndex st3).2 with ⟨r3, st5⟩
          have hc3 : coreUntouched st st5 := by
            have hc := build_log_index_core inp.logMeta inp.logContent
              (write_tree_to sessionIndex st3).2
            rw [hbl] at hc
            exact coreUntouched_trans
              (coreUntouched_trans hc2 (write_tree_to_core sessionIndex st3)) hc
          cases r3 with
          | error u => exact hc3
          | ok logIndex =>
            rw [hbw] at h
            dsimp only [] at h
            rw [hbs] at h
            dsimp only [] at h
            rw [hbl] at h
            simp at h

/-- Witness for the amended C5 at the concrete failing tick `inp0`. -/
theorem c5_failure_leaves_core_witness :
    coreUntouched Store.init (check_for_changes inp0 Store.init).2 :=
  c5_failure_leaves_core inp0 Store.init (by decide)

end GitButler

namespace GitButler

/-- C6: every snapshot that commits writes exactly one root tree holding
exactly three entries, named `session`, `wd` and `logs`, each with filemode
`0o040000`, pointing to the trees written from the session, working-directory
and log sub-builds respectively. -/
theorem c6_root_tree :
    ∀ (inp : TickInput) (st : Store) (cid : Nat),
      (check_for_changes inp st).1 = .ok (some cid) →
      ∃ (wdIndex sessionIndex logIndex : List IndexEntry) (st1 st3 st5 : Store),
        build_wd_index inp.wdFiles inp.repoIndex st = (.ok wdIndex, st1) ∧
        build_session_index inp.sessionFiles (write_tree_to wdIndex st1).2 =
          (.ok sessionIndex, st3) ∧
        build_log_index inp.logMeta inp.logContent (write_tree_to sessionIndex st3).2 =
          (.ok logIndex, st5) ∧
        (check_for_changes inp st).2.rootTrees = st.rootTrees ++
          [[⟨"session", TreeOid.mk sessionIndex, 0o040000⟩,
            ⟨"wd", TreeOid.mk wdIndex, 0o040000⟩,
            ⟨"logs", TreeOid.mk logIndex, 0o040000⟩]] := by
  intro inp st cid h
  unfold check_for_changes at h ⊢
  cases hr : ready_to_commit inp.session inp.now with
  | error u => rw [hr] at h; exact absurd h (by simp)
  | ok b =>
    rw [hr] at h
    cases b with
    | false => dsimp only [] at h; exact absurd h (by simp)
    | true =>
      dsimp only [] at h ⊢
      rcases hbw : build_wd_index inp.wdFiles inp.repoIndex st with ⟨r1, st1⟩
      have hcw := build_wd_index_core inp.wdFiles inp.repoIndex st
      rw [hbw] at h hcw
      cases r1 with
      | error u => simp at h
      | ok wdIndex =>
        have hc1 : coreUntouched st st1 := hcw
        dsimp only [] at h ⊢
        rcases hbs : build_session_index inp.sessionFiles
            (write_tree_to wdIndex st1).2 with ⟨r2, st3⟩
        have hcs := build_session_index_core inp.sessionFiles (write_tree_to wdIndex st1).2
        rw [hbs] at h hcs
        cases r2 with
        | error u => simp at h
        | ok sessionIndex =>
          have hc2 : coreUntouched st st3 :=
            coreUntouched_trans
              (coreUntouched_trans hc1 (write_tree_to_core wdIndex st1)) hcs
          dsimp only [] at h ⊢
          rcases hbl : build_log_index inp.logMeta inp.logContent
              (write_tree_to sessionIndex st3).2 with ⟨r3, st5⟩
          have hcl := build_log_index_core inp.logMeta inp.logContent
            (write_tree_to sessionIndex st3).2
          rw [hbl] at h hcl
          cases r3 with
          | error u => simp at h
          | ok logIndex =>
            have hc3 : coreUntouched st st5 :=
              coreUntouched_trans
                (coreUntouched_trans hc2 (write_tree_to_core sessionIndex st3)) hcl
            refine ⟨wdIndex, sessionIndex, logIndex, st1, st3, st5, rfl, hbs, hbl, ?_⟩
            cases hgb : st5.gbRef <;>
              simp [write_tree_to, writeRootTree, write_gb_commit,
                delete_current_session, hgb, hc3.1]

/-- Witness for C6 at the successfully committing tick `inp1`. -/
theorem c6_root_tree_witness :
    ∃ (wdIndex sessionIndex logIndex : List IndexEntry) (st1 st3 st5 : Store),
      build_wd_index inp1.wdFiles inp1.repoIndex Store.init = (.ok wdIndex, st1) ∧
      build_session_index inp1.sessionFiles (write_tree_to wdIndex st1).2 =
        (.ok sessionIndex, st3) ∧
      build_log_index inp1.logMeta inp1.logContent (write_tree_to sessionIndex st3).2 =
        (.ok logIndex, st5) ∧
      (check_for_changes inp1 Store.init).2.rootTrees = Store.init.rootTrees ++
        [[⟨"session", TreeOid.mk sessionIndex, 0o040000⟩,
          ⟨"wd", TreeOid.mk wdIndex, 0o040000⟩,
          ⟨"logs", TreeOid.mk logIndex, 0o040000⟩]] :=
  c6_root_tree inp1 Store.init 0 (by decide)

/-- C8 (a code bug relative to its own doc comment): `sha256_digest` renders
the digest with Rust's `\x7b:X\x7d`, so the pointer's `oid sha256:` value and the
external-store key are the UPPERCASE hex of the SHA-256 digest, not the
lowercase encoding the function's doc comment (and the git-lfs pointer spec
it links) prescribe: on the empty byte stream it returns `E3B0…855`, which is
not lowercase, and that same uppercase string is the `lfs/objects` key of an
externalized file. -/
theorem c8_digest_uppercase :
    sha256_digest [] = "E3B0C44298FC1C149AFBF4C8996FB92427AE41E4649B934CA495991B7852B855" ∧
    sha256_digest [] ≠ "e3b0c44298fc1c149afbf4c8996fb92427ae41e4649b934ca495991b7852b855" ∧
    (add_path [] [] "big" (.ok metaBig) (.ok []) Store.init).2.lfs =
      [("E3B0C44298FC1C149AFBF4C8996FB92427AE41E4649B934CA495991B7852B855", [])] :=
  ⟨by decide, by decide, by decide⟩

end GitButler

namespace GitButler

/-- Witness for C7: a path whose ignore check fails is skipped exactly like
an absent path. -/
theorem c7_ignore_fail_safe_witness :
    addPaths [] [⟨"x", .error (), .ok meta0, .ok []⟩] [] Store.init =
      addPaths [] [] [] Store.init :=
  c7_ignore_fail_safe [] [] [] ⟨"x", .error (), .ok meta0, .ok []⟩ (Or.inl rfl) []
    Store.init

end GitButler
